import Mathlib

/-!
Verification of the alias-settings controller
(`app/controllers/api/v1/users.js` of the JOBSVUE/fwml repository).

The controller manipulates loosely-typed JSON-like values (request bodies,
mongoose documents treated as bags of fields), so we embed a small JS value
universe `JSValue` and model records as association lists
`List (String × JSValue)` with JS property-access semantics (first match on
get, in-place replace or append on set).

JS numbers are modelled as integers: every numeric value the controller and
its validation rules inspect (page sizes, quotas, byte counts) is integral.
-/

namespace Fwml

/-- A JSON-ish JavaScript value as seen by the controller: `undefined`,
`null`, booleans, (integral) numbers, strings, arrays and plain objects. -/
inductive JSValue where
  | undefined
  | null
  | bool (b : Bool)
  | num (n : Int)
  | str (s : String)
  | arr (elems : List JSValue)
  | obj (fields : List (String × JSValue))

/-- A record (mongoose document or plain object) as an association list of
fields.  Property lookup returns the first matching key. -/
abbrev JSRecord := List (String × JSValue)

/-- The result of JavaScript `typeof`. -/
def typeOf : JSValue → String
  | .undefined => "undefined"
  | .null => "object"
  | .bool _ => "boolean"
  | .num _ => "number"
  | .str _ => "string"
  | .arr _ => "object"
  | .obj _ => "object"

/-- JavaScript truthiness. -/
def truthy : JSValue → Bool
  | .undefined => false
  | .null => false
  | .bool b => b
  | .num n => n != 0
  | .str s => s.length != 0
  | .arr _ => true
  | .obj _ => true

/-- JavaScript `a && b`. -/
def jsAnd (a b : JSValue) : JSValue :=
  if truthy a then b else a

/-- JavaScript `a || b`. -/
def jsOr (a b : JSValue) : JSValue :=
  if truthy a then a else b

/-- Is this value `undefined`? -/
def isUndefinedVal : JSValue → Bool
  | .undefined => true
  | _ => false

/-- Is this value `null`? -/
def isNull : JSValue → Bool
  | .null => true
  | _ => false

/-- Is this value a string? -/
def isStrVal : JSValue → Bool
  | .str _ => true
  | _ => false

/-- Is this value a boolean? -/
def isBoolVal : JSValue → Bool
  | .bool _ => true
  | _ => false

/-- String coercion as used inside a template literal (only ever applied to
string-valued fields by the controller; other cases follow JS loosely). -/
def jsToString : JSValue → String
  | .undefined => "undefined"
  | .null => "null"
  | .bool b => if b then "true" else "false"
  | .num n => toString n
  | .str s => s
  | .arr _ => ""
  | .obj _ => "[object Object]"

/-- Own-property lookup on a record: first entry with the given key. -/
def getOwn : JSRecord → String → Option JSValue
  | [], _ => none
  | (k, v) :: rest, key => if k = key then some v else getOwn rest key

/-- Property read defaulting to `undefined` (JS `rec[key]`). -/
def getProp (rec : JSRecord) (key : String) : JSValue :=
  (getOwn rec key).getD .undefined

/-- Property read on an arbitrary value (`undefined` off non-objects). -/
def getPropV (v : JSValue) (key : String) : JSValue :=
  match v with
  | .obj fields => getProp fields key
  | _ => .undefined

/-- Property assignment: replace the first entry with the key in place, or
append when the key is absent (JS `rec[key] = v`). -/
def setKey : JSRecord → String → JSValue → JSRecord
  | [], key, v => [(key, v)]
  | (k, w) :: rest, key, v =>
      if k = key then (key, v) :: rest else (k, w) :: setKey rest key v

/-- The whitelist of mutable alias settings fields
(`ALIAS_SETTINGS_FIELDS` in the controller). -/
def ALIAS_SETTINGS_FIELDS : List String :=
  [ "appearance_theme"
  , "appearance_layout_mode"
  , "compose_plain_default"
  , "mail_messages_per_page"
  , "mail_archive_folder"
  , "search_body_indexing"
  , "search_saved_searches"
  , "prefetch_enabled"
  , "prefetch_folders"
  , "prefetch_mode"
  , "shortcuts"
  , "label_settings"
  , "security_remember_passphrase"
  , "aliases_defaults"
  ]

/-- Lodash `_.pick(rec, fields)` on a record: keeps, in `fields` order, the
entries whose key is an own property of `rec`. -/
def pickRec (rec : JSRecord) (fields : List String) : JSRecord :=
  fields.filterMap fun f => (getOwn rec f).map fun v => (f, v)

/-- `_.pick(body, ALIAS_SETTINGS_FIELDS)` on an arbitrary body value: a
non-object body (including `null`, `undefined` and arrays, which carry no
string-named own properties from a JSON body) yields an empty picked set. -/
def pickFields (body : JSValue) : JSRecord :=
  match body with
  | .obj fields => pickRec fields ALIAS_SETTINGS_FIELDS
  | _ => []

/-- The `for (const [key, value] of Object.entries(updates))` loop of
`updateAliasSettingsForContext`: skip `undefined` values, `alias.set` the
rest in order. -/
def applyUpdates (aliasDoc : JSRecord) (updates : JSRecord) : JSRecord :=
  updates.foldl
    (fun doc kv => if isUndefinedVal kv.2 then doc else setKey doc kv.1 kv.2) aliasDoc

/-- The error taxonomy surfaced by the controller.  Each constructor records
the Boom error actually thrown together with its translation key:
`authRequired` and `invalidAliasId` are `Boom.unauthorized` (HTTP 401),
`invalidRequestBody` and `archiveFolderInvalid` are `Boom.badRequest`
(HTTP 400), `aliasDoesNotExist` is `Boom.notFound` (HTTP 404), and
`validationFailed` is the structured field-level mongoose validation error
surfaced as a client error (HTTP 400). -/
inductive SettingsError where
  | authRequired
  | invalidAliasId
  | invalidRequestBody
  | archiveFolderInvalid
  | aliasDoesNotExist
  | validationFailed (field : String) (reason : String)
  deriving DecidableEq

/-- HTTP status of each error. -/
def errorStatus : SettingsError → Nat
  | .authRequired => 401
  | .invalidAliasId => 401
  | .invalidRequestBody => 400
  | .archiveFolderInvalid => 400
  | .aliasDoesNotExist => 404
  | .validationFailed _ _ => 400

/-- Hex digit check used by the color syntax. -/
def isHexDigitChar (c : Char) : Bool :=
  c.isDigit || ('a' ≤ c && c ≤ 'f') || ('A' ≤ c && c ≤ 'F')

/-- A 6-digit hex color `#RRGGBB`, case-insensitive. -/
def isHexColor (s : String) : Bool :=
  match s.data with
  | '#' :: rest => rest.length == 6 && rest.all isHexDigitChar
  | _ => false

/-- A character allowed in a label keyword (`[A-Za-z0-9_-]`). -/
def isLabelKeywordChar (c : Char) : Bool :=
  c.isAlphanum || c == '_' || c == '-'

/-- A label keyword: non-empty, no whitespace, only `[A-Za-z0-9_-]`. -/
def isLabelKeyword (s : String) : Bool :=
  s.length != 0 && s.data.all isLabelKeywordChar

/-- First error produced by a checker over a list, or `none`. -/
def firstSome {α β : Type} (f : α → Option β) : List α → Option β
  | [] => none
  | x :: xs =>
    match f x with
    | some e => some e
    | none => firstSome f xs

/-- Modelled from the spec: the Label Registry Validator (§4.4) living in the
Aliases mongoose model, whose file is not under src/ — keys must match the
keyword syntax, values must be objects with a required non-empty string
`name`, a required `#RRGGBB` `color`, and an optional boolean `hidden`; a
non-object registry is an `InvalidType`.  Returns the first failure reason. -/
def validateLabels (v : JSValue) : Option String :=
  match v with
  | .obj entries =>
    firstSome
      (fun kv =>
        if !isLabelKeyword kv.1 then some "InvalidLabelKeyword"
        else
          match kv.2 with
          | .obj def_fields =>
            (match getOwn def_fields "name" with
             | some (.str n) =>
               if n.length == 0 then some "InvalidLabelValue"
               else
                 match getOwn def_fields "color" with
                 | some (.str c) =>
                   if !isHexColor c then some "InvalidLabelColor"
                   else
                     (match getOwn def_fields "hidden" with
                      | none => none
                      | some .undefined => none
                      | some (.bool _) => none
                      | some _ => some "InvalidLabelValue")
                 | _ => some "InvalidLabelColor"
             | _ => some "InvalidLabelValue")
          | _ => some "InvalidLabelValue")
      entries
  | _ => some "InvalidType"

/-- Modelled from the spec: the saved-search element rule (§4.3) of the
Aliases model (not under src/) — each element must be an object with string
`name` and string `query` of length at most 500. -/
def validateSavedSearch (v : JSValue) : Option String :=
  match v with
  | .obj fields =>
    match getOwn fields "name", getOwn fields "query" with
    | some (.str _), some (.str q) =>
      if q.length ≤ 500 then none else some "FieldLengthExceeded"
    | _, _ => some "InvalidType"
  | _ => some "InvalidType"

/-- Modelled from the spec: the per-field validation rules of the Settings
Field Registry (§4.2–§4.4), which are enforced by the Aliases mongoose model
at save time; the model file is not under src/ (only this controller and the
test suite are), so the rules are transcribed from the spec: enum fields
with their fixed value sets, the closed page-size set, the
`null`-or-string archive folder, strict booleans, string sequences,
saved-search shape, non-empty shortcut bindings, object-shaped
`aliases_defaults`, and the label registry.  Unknown field names have no
rule.  Returns the first failure reason for the field, or `none`. -/
def validateField (name : String) (v : JSValue) : Option String :=
  if name = "appearance_theme" then
    match v with
    | .str s => if s = "system" || s = "light" || s = "dark" then none
                else some "InvalidEnum"
    | _ => some "InvalidEnum"
  else if name = "appearance_layout_mode" then
    match v with
    | .str _ => none
    | _ => some "InvalidType"
  else if name = "compose_plain_default" || name = "search_body_indexing"
       || name = "prefetch_enabled" || name = "security_remember_passphrase" then
    match v with
    | .bool _ => none
    | _ => some "InvalidType"
  else if name = "mail_messages_per_page" then
    match v with
    | .num n => if n = 25 || n = 50 || n = 100 then none
                else some "InvalidEnum"
    | _ => some "InvalidEnum"
  else if name = "mail_archive_folder" then
    match v with
    | .null => none
    | .str _ => none
    | _ => some "InvalidType"
  else if name = "prefetch_mode" then
    match v with
    | .str s => if s = "default" || s = "custom" then none
                else some "InvalidEnum"
    | _ => some "InvalidEnum"
  else if name = "prefetch_folders" then
    match v with
    | .arr elems => if elems.all isStrVal then none else some "InvalidType"
    | _ => some "InvalidType"
  else if name = "search_saved_searches" then
    match v with
    | .arr elems => firstSome validateSavedSearch elems
    | _ => some "InvalidType"
  else if name = "shortcuts" then
    match v with
    | .obj entries =>
      if entries.all (fun kv => isStrVal kv.2 && truthy kv.2) then none
      else some "InvalidType"
    | _ => some "InvalidType"
  else if name = "aliases_defaults" then
    match v with
    | .obj _ => none
    | _ => some "InvalidType"
  else if name = "label_settings" then validateLabels v
  else none

/-- Validation of a single field of a document: absent or `undefined`
values are skipped (absence is "use default", never an error). -/
def checkField (doc : JSRecord) (f : String) : Option (String × String) :=
  match getOwn doc f with
  | some v => if isUndefinedVal v then none else (validateField f v).map fun r => (f, r)
  | none => none

/-- Modelled from the spec: document validation as run by mongoose inside
`alias.save()` — every registered settings field present on the document is
checked against its rule; the first failing field aborts the save atomically
with a structured error naming the field and reason, before anything is
written (§4.3, §7). -/
def findFieldError (fields : List String) (doc : JSRecord) :
    Option (String × String) :=
  firstSome (checkField doc) fields

/-- The authenticated request context consumed by the controller:
`ctx.state.user` (a JS value, `undefined` when absent), the truthiness of
`ctx.state.session.db` (alias-authentication marker), and `ctx.locale`. -/
structure Ctx where
  user : JSValue
  sessionDb : Bool
  locale : String

/-- The resolved delegated-alias actor. -/
structure AliasContext where
  aliasId : JSValue
  domainName : JSValue
  aliasEmail : JSValue

/-- `mongoose.isValidObjectId`: a 24-character hex string, a 12-character
string, or a number (values castable to an ObjectId). -/
def isValidObjectId (v : JSValue) : Bool :=
  match v with
  | .str s => (s.length == 24 && s.data.all isHexDigitChar) || s.length == 12
  | .num _ => true
  | _ => false

/-- `getAliasContext(ctx)`: requires a session user with a truthy
`alias_id`; rejects a malformed alias id; otherwise returns the actor. -/
def getAliasContext (ctx : Ctx) : Except SettingsError AliasContext :=
  let user := ctx.user
  if !truthy user || !truthy (getPropV user "alias_id") then
    .error .authRequired
  else if !isValidObjectId (getPropV user "alias_id") then
    .error .invalidAliasId
  else
    .ok { aliasId := getPropV user "alias_id"
        , domainName := getPropV user "domain_name"
        , aliasEmail := getPropV user "username" }

/-- The controller's inline guard on `updates.mail_archive_folder`: present
own property that is neither `null` nor `undefined` nor a string. -/
def archiveFolderBad (updates : JSRecord) : Bool :=
  match getOwn updates "mail_archive_folder" with
  | some v => !isNull v && !isUndefinedVal v && !(typeOf v == "string")
  | none => false

/-- `updateAliasSettingsForContext(ctx, body)` given the record the
`Aliases.findById` call returns (`stored`, `none` when the alias record no
longer exists).  On success the returned record is the document persisted by
the single `alias.save()` call; any error aborts before anything is
persisted (the mongoose save validates first and writes atomically, modelled
by `findFieldError`). -/
def updateAliasSettingsForContext (ctx : Ctx) (stored : Option JSRecord)
    (body : JSValue) : Except SettingsError JSRecord :=
  match getAliasContext ctx with
  | .error e => .error e
  | .ok _actx =>
    if truthy body && !(typeOf body == "object") then
      .error .invalidRequestBody
    else
      match stored with
      | none => .error .invalidAliasId
      | some aliasDoc =>
        let updates := pickFields body
        if archiveFolderBad updates then .error .archiveFolderInvalid
        else
          let doc := applyUpdates aliasDoc updates
          match findFieldError ALIAS_SETTINGS_FIELDS doc with
          | some fr => .error (.validationFailed fr.1 fr.2)
          | none => .ok doc

/-- The persisted alias record after an update call: unchanged whenever the
call threw (no partial field application — the only write is the atomic
`alias.save()` of the fully merged document on success). -/
def persistedAfterUpdate (ctx : Ctx) (stored : Option JSRecord)
    (body : JSValue) : Option JSRecord :=
  match updateAliasSettingsForContext ctx stored body with
  | .error _ => stored
  | .ok doc => some doc

/-- `serializeAliasSettings(alias)`: pick the whitelisted settings fields
off the record, then patch the three map-valued fields to `{}` when falsy
(in particular when absent). -/
def serializeAliasSettings (aliasDoc : JSRecord) : JSRecord :=
  let s0 := pickRec aliasDoc ALIAS_SETTINGS_FIELDS
  let s1 := if truthy (getProp s0 "shortcuts") then s0
            else setKey s0 "shortcuts" (.obj [])
  let s2 := if truthy (getProp s1 "label_settings") then s1
            else setKey s1 "label_settings" (.obj [])
  if truthy (getProp s2 "aliases_defaults") then s2
  else setKey s2 "aliases_defaults" (.obj [])

/-- Modelled from the spec: `config.maxQuotaPerAlias`, the global default
quota constant supplied by the configuration collaborator (§6); the config
module is not under src/.  Its concrete value is not part of the shown code;
it is a fixed positive byte count (10 GiB here), and nothing below depends
on more than it being a fixed truthy constant. -/
def configMaxQuotaPerAlias : JSValue := .num 10737418240

/-- `alias.storage_used || 0`. -/
def storageUsedOf (aliasDoc : JSRecord) : JSValue :=
  jsOr (getProp aliasDoc "storage_used") (.num 0)

/-- `(alias.domain && alias.domain.max_quota_per_alias) ||
config.maxQuotaPerAlias` — note the JS truthiness fallback. -/
def maxQuotaOf (aliasDoc : JSRecord) : JSValue :=
  jsOr
    (jsAnd (getProp aliasDoc "domain")
      (getPropV (getProp aliasDoc "domain") "max_quota_per_alias"))
    configMaxQuotaPerAlias

/-- The `ctx.body` object literal assembled by `retrieve` and by `update`
after a successful settings save, from the populated (`domain` sub-object
included) alias record: identity and mailbox fields, quota figures, then the
spread of `serializeAliasSettings(alias)`.  The identity keys and the
settings field names are disjoint, so the spread overrides nothing. -/
def assembleAccountPayload (locale : String) (aliasDoc : JSRecord) :
    JSRecord :=
  [ ("id", getProp aliasDoc "id")
  , ("object", .str "alias")
  , ("name", getProp aliasDoc "name")
  , ("email", .str (jsToString (getProp aliasDoc "name") ++ "@"
      ++ jsToString (getPropV (getProp aliasDoc "domain") "name")))
  , ("domain_id", getPropV (getProp aliasDoc "domain") "id")
  , ("domain_name", getPropV (getProp aliasDoc "domain") "name")
  , ("storage_used", storageUsedOf aliasDoc)
  , ("storage_quota", maxQuotaOf aliasDoc)
  , ("has_imap", getProp aliasDoc "has_imap")
  , ("has_pgp", getProp aliasDoc "has_pgp")
  , ("public_key", getProp aliasDoc "public_key")
  , ("locale", jsOr (getProp aliasDoc "locale") (.str locale))
  , ("created_at", getProp aliasDoc "created_at")
  , ("updated_at", getProp aliasDoc "updated_at")
  ] ++ serializeAliasSettings aliasDoc

/-- `retrieve(ctx)` given the populated record the `Aliases.findById`
chain returns on the alias path (`fetched`): the alias path assembles the
account payload (404 when the alias record no longer exists); the user path
returns `ctx.state.user.toObject()`. -/
def retrieve (ctx : Ctx) (fetched : Option JSRecord) :
    Except SettingsError JSValue :=
  if ctx.sessionDb then
    match fetched with
    | none => .error .aliasDoesNotExist
    | some aliasDoc => .ok (.obj (assembleAccountPayload ctx.locale aliasDoc))
  else .ok ctx.user

/-- The user-actor branch of `update`: copy each of the four identity
fields off the body when it is a string (the passport field-name constants
resolve to `given_name` and `family_name`; the config module is not under
src/). -/
def applyUserUpdates (user : JSRecord) (body : JSValue) : JSRecord :=
  let step := fun (rec : JSRecord) (k : String) =>
    if isStrVal (getPropV body k) then setKey rec k (getPropV body k) else rec
  step (step (step (step user "email") "given_name") "family_name")
    "avatar_url"

/-- `update(ctx)` with the request `body`: on the alias path, run
`updateAliasSettingsForContext` against the `stored` record, then re-fetch
the populated record (`refetched` — what the second `Aliases.findById`
returns, `none` when the alias vanished) and assemble the account payload;
on the user path, apply the string identity fields and return the saved
user. -/
def update (ctx : Ctx) (stored : Option JSRecord)
    (refetched : Option JSRecord) (body : JSValue) :
    Except SettingsError JSValue :=
  if ctx.sessionDb then
    match updateAliasSettingsForContext ctx stored body with
    | .error e => .error e
    | .ok _saved =>
      match refetched with
      | none => .error .aliasDoesNotExist
      | some aliasDoc =>
        .ok (.obj (assembleAccountPayload ctx.locale aliasDoc))
  else
    match ctx.user with
    | .obj user => .ok (.obj (applyUserUpdates user body))
    | u => .ok u

/-- Modelled from the spec: the settings fields a freshly created alias
record carries, i.e. the Aliases model's schema defaults (the model file is
not under src/; the defaults are those the spec registers in §4.6/§8:
`appearance_theme="system"`, `appearance_layout_mode="personal"`,
`mail_messages_per_page=50`, `mail_archive_folder=null`,
`search_body_indexing=false`); the three map-valued fields `shortcuts`,
`label_settings` and `aliases_defaults` have no stored default — they are
absent on the record and defaulted to `{}` by `serializeAliasSettings`. -/
def defaultSettingsRecord : JSRecord :=
  [ ("appearance_theme", .str "system")
  , ("appearance_layout_mode", .str "personal")
  , ("mail_messages_per_page", .num 50)
  , ("mail_archive_folder", .null)
  , ("search_body_indexing", .bool false)
  ]

/-- A record has never had a settings field set when its whitelisted fields
are exactly the schema defaults (and the three map fields are absent). -/
def neverSetSettings (rec : JSRecord) : Prop :=
  ∀ f ∈ ALIAS_SETTINGS_FIELDS, getOwn rec f = getOwn defaultSettingsRecord f

/-- A concrete authenticated alias request context used by the witnesses. -/
def sampleCtx : Ctx :=
  { user := .obj [ ("alias_id", .str "0123456789abcdef01234567")
                 , ("domain_name", .str "example.com")
                 , ("username", .str "info@example.com") ]
  , sessionDb := true
  , locale := "en" }

/-- The actor `getAliasContext` resolves for `sampleCtx`. -/
def sampleActx : AliasContext :=
  { aliasId := .str "0123456789abcdef01234567"
  , domainName := .str "example.com"
  , aliasEmail := .str "info@example.com" }

/-- A populated fresh alias record: identity fields, a domain sub-object,
and the schema-default settings. -/
def samplePopulatedAlias : JSRecord :=
  [ ("id", .str "64f000000000000000000001")
  , ("name", .str "info")
  , ("domain", .obj [ ("id", .str "64f000000000000000000002")
                    , ("name", .str "example.com") ])
  , ("storage_used", .num 1024)
  , ("has_imap", .bool true)
  , ("has_pgp", .bool false)
  , ("public_key", .null)
  , ("locale", .str "en")
  ] ++ defaultSettingsRecord

/-- A populated alias whose domain carries `max_quota_per_alias = 0`. -/
def zeroQuotaAlias : JSRecord :=
  [ ("name", .str "info")
  , ("domain", .obj [ ("name", .str "example.com")
                    , ("max_quota_per_alias", .num 0) ])
  ] ++ defaultSettingsRecord

/-- A populated alias whose domain carries a nonzero quota. -/
def quotaAlias : JSRecord :=
  [ ("name", .str "info")
  , ("domain", .obj [ ("name", .str "example.com")
                    , ("max_quota_per_alias", .num 42) ])
  ] ++ defaultSettingsRecord

theorem getOwn_setKey_self (rec : JSRecord) (k : String) (v : JSValue) :
    getOwn (setKey rec k v) k = some v := by
  induction rec with
  | nil => simp [setKey, getOwn]
  | cons kv rest ih =>
    obtain ⟨j, w⟩ := kv
    by_cases h : j = k
    · simp [setKey, h, getOwn]
    · simp [setKey, h, getOwn, ih]

theorem getOwn_setKey_ne (rec : JSRecord) {j k : String} (h : j ≠ k)
    (v : JSValue) : getOwn (setKey rec j v) k = getOwn rec k := by
  induction rec with
  | nil => simp [setKey, getOwn, h]
  | cons kv rest ih =>
    obtain ⟨i, w⟩ := kv
    by_cases hij : i = j
    · subst hij; simp [setKey, getOwn, h]
    · simp [setKey, hij, getOwn, ih]

theorem applyUpdates_nil (a : JSRecord) : applyUpdates a [] = a := rfl

theorem applyUpdates_cons (a : JSRecord) (kv : String × JSValue)
    (us : JSRecord) :
    applyUpdates a (kv :: us) =
      applyUpdates (if isUndefinedVal kv.2 then a else setKey a kv.1 kv.2) us := rfl

theorem getOwn_applyUpdates_notmem (us : JSRecord) (a : JSRecord) (k : String)
    (h : k ∉ us.map Prod.fst) :
    getOwn (applyUpdates a us) k = getOwn a k := by
  induction us generalizing a with
  | nil => rfl
  | cons kv rest ih =>
    obtain ⟨j, w⟩ := kv
    simp only [List.map_cons, List.mem_cons, not_or] at h
    obtain ⟨hkj, hrest⟩ := h
    rw [applyUpdates_cons, ih _ hrest]
    by_cases hw : isUndefinedVal w
    · simp [hw]
    · simp [hw, getOwn_setKey_ne _ (fun he => hkj he.symm)]

theorem getOwn_applyUpdates (us : JSRecord) (a : JSRecord) (k : String)
    (hnd : (us.map Prod.fst).Nodup) :
    getOwn (applyUpdates a us) k =
      match getOwn us k with
      | some v => if isUndefinedVal v then getOwn a k else some v
      | none => getOwn a k := by
  induction us generalizing a with
  | nil => rfl
  | cons kv rest ih =>
    obtain ⟨j, w⟩ := kv
    simp only [List.map_cons, List.nodup_cons] at hnd
    obtain ⟨hj, hrest⟩ := hnd
    rw [applyUpdates_cons]
    by_cases hjk : j = k
    · subst hjk
      rw [getOwn_applyUpdates_notmem _ _ _ hj]
      by_cases hw : isUndefinedVal w <;> simp [getOwn, hw, getOwn_setKey_self]
    · rw [ih _ hrest]
      have ha : getOwn (if isUndefinedVal w then a else setKey a j w) k
          = getOwn a k := by
        by_cases hw : isUndefinedVal w
        · simp [hw]
        · simp [hw, getOwn_setKey_ne _ hjk]
      rw [ha]
      simp [getOwn, hjk]

theorem getOwn_pickRec (rec : JSRecord) (fields : List String) (k : String)
    (hnd : fields.Nodup) :
    getOwn (pickRec rec fields) k =
      if k ∈ fields then getOwn rec k else none := by
  induction fields with
  | nil => simp [pickRec, getOwn]
  | cons f rest ih =>
    simp only [List.nodup_cons] at hnd
    obtain ⟨hf, hrest⟩ := hnd
    by_cases hfk : f = k
    · subst hfk
      cases hrec : getOwn rec f with
      | none =>
        simp only [pickRec, List.filterMap_cons, hrec, Option.map_none']
        rw [show List.filterMap
          (fun g => (getOwn rec g).map fun v => (g, v)) rest
          = pickRec rec rest from rfl, ih hrest]
        simp [hf, hrec]
      | some v =>
        simp [pickRec, List.filterMap_cons, hrec, getOwn]
    · cases hrec : getOwn rec f with
      | none =>
        simp only [pickRec, List.filterMap_cons, hrec, Option.map_none']
        rw [show List.filterMap
          (fun g => (getOwn rec g).map fun v => (g, v)) rest
          = pickRec rec rest from rfl, ih hrest]
        have hkf : ¬k = f := fun h => hfk h.symm
        simp [hkf]
      | some v =>
        simp only [pickRec, List.filterMap_cons, hrec, Option.map_some']
        rw [getOwn]
        simp only [hfk, if_false]
        rw [show List.filterMap
          (fun g => (getOwn rec g).map fun v => (g, v)) rest
          = pickRec rec rest from rfl, ih hrest]
        have hkf : ¬k = f := fun h => hfk h.symm
        simp [hkf]

theorem pickRec_keys_sublist (rec : JSRecord) (fields : List String) :
    List.Sublist ((pickRec rec fields).map Prod.fst) fields := by
  induction fields with
  | nil => simp [pickRec]
  | cons f rest ih =>
    cases hrec : getOwn rec f with
    | none =>
      simp only [pickRec, List.filterMap_cons, hrec, Option.map_none']
      exact ih.cons _
    | some v =>
      simp only [pickRec, List.filterMap_cons, hrec, Option.map_some',
        List.map_cons]
      exact ih.cons₂ _

theorem pickRec_keys_nodup (rec : JSRecord) (fields : List String)
    (h : fields.Nodup) : ((pickRec rec fields).map Prod.fst).Nodup :=
  List.Nodup.sublist (pickRec_keys_sublist rec fields) h

theorem pickRec_ext {a b : JSRecord} (fields : List String)
    (h : ∀ f ∈ fields, getOwn a f = getOwn b f) :
    pickRec a fields = pickRec b fields := by
  induction fields with
  | nil => rfl
  | cons f rest ih =>
    simp only [pickRec, List.filterMap_cons]
    rw [h f (by simp)]
    have hrec : List.filterMap
        (fun g => (getOwn a g).map fun v => (g, v)) rest
        = List.filterMap (fun g => (getOwn b g).map fun v => (g, v)) rest :=
      ih fun g hg => h g (by simp [hg])
    rw [hrec]

theorem getOwn_filter (fs : JSRecord) (p : String × JSValue → Bool)
    (k : String) (hp : ∀ v, p (k, v) = true) :
    getOwn (fs.filter p) k = getOwn fs k := by
  induction fs with
  | nil => rfl
  | cons kv rest ih =>
    obtain ⟨j, w⟩ := kv
    by_cases hjk : j = k
    · subst hjk; simp [List.filter_cons, hp w, getOwn]
    · cases hpw : p (j, w) <;>
        simp [List.filter_cons, hpw, getOwn, hjk, ih]

theorem typeOf_string_iff (v : JSValue) :
    (typeOf v == "string") = isStrVal v := by
  cases v <;> rfl

theorem getOwn_append (xs ys : JSRecord) (k : String) :
    getOwn (xs ++ ys) k =
      match getOwn xs k with
      | some v => some v
      | none => getOwn ys k := by
  induction xs with
  | nil => rfl
  | cons kv rest ih =>
    obtain ⟨j, w⟩ := kv
    by_cases hjk : j = k <;> simp [getOwn, hjk, ih]

theorem firstSome_isSome {α β : Type} (f : α → Option β) (l : List α) (x : α)
    (hx : x ∈ l) (hf : (f x).isSome) : (firstSome f l).isSome := by
  induction l with
  | nil => cases hx
  | cons y ys ih =>
    cases hy : f y with
    | some e => simp [firstSome, hy]
    | none =>
      simp only [firstSome, hy]
      rcases List.mem_cons.mp hx with rfl | hx'
      · rw [hy] at hf; cases hf
      · exact ih hx'

theorem findFieldError_isSome (fields : List String) (doc : JSRecord)
    (f : String) (v : JSValue) (r : String)
    (hf : f ∈ fields) (hv : getOwn doc f = some v) (hu : isUndefinedVal v = false)
    (hbad : validateField f v = some r) :
    (findFieldError fields doc).isSome := by
  apply firstSome_isSome _ _ f hf
  simp [checkField, hv, hu, hbad]

theorem update_obj_eq (ctx : Ctx) (actx : AliasContext) (a : JSRecord)
    (fs : JSRecord) (hctx : getAliasContext ctx = .ok actx) :
    updateAliasSettingsForContext ctx (some a) (.obj fs) =
      (if archiveFolderBad (pickRec fs ALIAS_SETTINGS_FIELDS) then
        .error .archiveFolderInvalid
      else
        match findFieldError ALIAS_SETTINGS_FIELDS
            (applyUpdates a (pickRec fs ALIAS_SETTINGS_FIELDS)) with
        | some fr => .error (.validationFailed fr.1 fr.2)
        | none => .ok (applyUpdates a (pickRec fs ALIAS_SETTINGS_FIELDS))) := by
  simp [updateAliasSettingsForContext, hctx, truthy, typeOf, pickFields]

theorem update_ok_doc (ctx : Ctx) (a : JSRecord) (fs : JSRecord)
    (doc : JSRecord)
    (hok : updateAliasSettingsForContext ctx (some a) (.obj fs) = .ok doc) :
    doc = applyUpdates a (pickRec fs ALIAS_SETTINGS_FIELDS) := by
  cases hctx : getAliasContext ctx with
  | error e => simp [updateAliasSettingsForContext, hctx] at hok
  | ok actx =>
    rw [update_obj_eq ctx actx a fs hctx] at hok
    by_cases hb : archiveFolderBad (pickRec fs ALIAS_SETTINGS_FIELDS)
    · simp [hb] at hok
    · simp only [hb, if_false] at hok
      cases hfe : findFieldError ALIAS_SETTINGS_FIELDS
          (applyUpdates a (pickRec fs ALIAS_SETTINGS_FIELDS)) with
      | some fr => rw [hfe] at hok; cases hok
      | none =>
        rw [hfe] at hok
        exact (Except.ok.inj hok).symm

theorem update_ok_getOwn (ctx : Ctx) (a : JSRecord) (fs : JSRecord)
    (doc : JSRecord) (k : String)
    (hok : updateAliasSettingsForContext ctx (some a) (.obj fs) = .ok doc) :
    getOwn doc k =
      if k ∈ ALIAS_SETTINGS_FIELDS then
        match getOwn fs k with
        | some v => if isUndefinedVal v then getOwn a k else some v
        | none => getOwn a k
      else getOwn a k := by
  rw [update_ok_doc ctx a fs doc hok]
  rw [getOwn_applyUpdates _ _ _
    (pickRec_keys_nodup fs ALIAS_SETTINGS_FIELDS (by decide))]
  rw [getOwn_pickRec fs ALIAS_SETTINGS_FIELDS k (by decide)]
  by_cases hk : k ∈ ALIAS_SETTINGS_FIELDS <;> simp [hk]

theorem update_rejects_invalid_field (ctx : Ctx) (actx : AliasContext)
    (a : JSRecord) (fs : JSRecord) (k : String) (v : JSValue) (r : String)
    (hctx : getAliasContext ctx = .ok actx) (hk : k ∈ ALIAS_SETTINGS_FIELDS)
    (hv : getOwn fs k = some v) (hu : isUndefinedVal v = false)
    (hbad : validateField k v = some r) :
    ∃ e, updateAliasSettingsForContext ctx (some a) (.obj fs) = .error e ∧
      errorStatus e = 400 := by
  rw [update_obj_eq ctx actx a fs hctx]
  by_cases hb : archiveFolderBad (pickRec fs ALIAS_SETTINGS_FIELDS)
  · exact ⟨.archiveFolderInvalid, by simp [hb], rfl⟩
  · have hdk : getOwn (applyUpdates a (pickRec fs ALIAS_SETTINGS_FIELDS)) k
        = some v := by
      rw [getOwn_applyUpdates _ _ _
        (pickRec_keys_nodup fs ALIAS_SETTINGS_FIELDS (by decide))]
      rw [getOwn_pickRec fs ALIAS_SETTINGS_FIELDS k (by decide)]
      simp [hk, hv, hu]
    have hsome := findFieldError_isSome ALIAS_SETTINGS_FIELDS _ k v r hk hdk
      hu hbad
    cases hfe : findFieldError ALIAS_SETTINGS_FIELDS
        (applyUpdates a (pickRec fs ALIAS_SETTINGS_FIELDS)) with
    | none => rw [hfe] at hsome; cases hsome
    | some fr => exact ⟨.validationFailed fr.1 fr.2, by simp [hb, hfe], rfl⟩

/-- Claim C1: for every update payload, when any whitelisted settings field
carries a defined value that fails its validation rule, the update operation
aborts with a structured error and the persisted alias record is unchanged:
no partial field application — every validation failure is detected before
any mutation of the persisted record. -/
theorem C1_validation_failure_is_atomic (ctx : Ctx) (stored : Option JSRecord)
    (fs : JSRecord) (k : String) (v : JSValue) (r : String)
    (hk : k ∈ ALIAS_SETTINGS_FIELDS) (hv : getOwn fs k = some v)
    (hu : isUndefinedVal v = false) (hbad : validateField k v = some r) :
    (∃ e, updateAliasSettingsForContext ctx stored (.obj fs) = .error e) ∧
      persistedAfterUpdate ctx stored (.obj fs) = stored := by
  have herr : ∃ e,
      updateAliasSettingsForContext ctx stored (.obj fs) = .error e := by
    cases hctx : getAliasContext ctx with
    | error e => exact ⟨e, by simp [updateAliasSettingsForContext, hctx]⟩
    | ok actx =>
      cases stored with
      | none =>
        exact ⟨.invalidAliasId,
          by simp [updateAliasSettingsForContext, hctx, truthy, typeOf]⟩
      | some a =>
        obtain ⟨e, he, _⟩ :=
          update_rejects_invalid_field ctx actx a fs k v r hctx hk hv hu hbad
        exact ⟨e, he⟩
  refine ⟨herr, ?_⟩
  obtain ⟨e, he⟩ := herr
  simp [persistedAfterUpdate, he]

/-- Witness for C1 at a concrete input: a payload with
`mail_messages_per_page = 30` aborts and leaves the stored record intact. -/
theorem C1_witness :
    (∃ e, updateAliasSettingsForContext sampleCtx (some defaultSettingsRecord)
        (.obj [("mail_messages_per_page", .num 30)]) = .error e) ∧
      persistedAfterUpdate sampleCtx (some defaultSettingsRecord)
        (.obj [("mail_messages_per_page", .num 30)])
        = some defaultSettingsRecord :=
  C1_validation_failure_is_atomic sampleCtx (some defaultSettingsRecord)
    [("mail_messages_per_page", .num 30)] "mail_messages_per_page"
    (.num 30) "InvalidEnum" (by decide) rfl rfl rfl

/-- Claim C2: an alias record on which no settings field has ever been set
(its whitelisted fields are exactly the schema defaults, the three map
fields absent) is assembled into an account payload carrying the registered
default of every settings field: `appearance_theme = "system"`,
`appearance_layout_mode = "personal"`, `mail_messages_per_page = 50`,
`mail_archive_folder = null`, `search_body_indexing = false`, and the empty
map for `label_settings`, `shortcuts` and `aliases_defaults`. -/
theorem C2_fresh_alias_payload_defaults (rec : JSRecord) (locale : String)
    (h : neverSetSettings rec) :
    getOwn (assembleAccountPayload locale rec) "appearance_theme"
        = some (.str "system") ∧
      getOwn (assembleAccountPayload locale rec) "appearance_layout_mode"
        = some (.str "personal") ∧
      getOwn (assembleAccountPayload locale rec) "mail_messages_per_page"
        = some (.num 50) ∧
      getOwn (assembleAccountPayload locale rec) "mail_archive_folder"
        = some .null ∧
      getOwn (assembleAccountPayload locale rec) "search_body_indexing"
        = some (.bool false) ∧
      getOwn (assembleAccountPayload locale rec) "label_settings"
        = some (.obj []) ∧
      getOwn (assembleAccountPayload locale rec) "shortcuts"
        = some (.obj []) ∧
      getOwn (assembleAccountPayload locale rec) "aliases_defaults"
        = some (.obj []) := by
  have hpick : pickRec rec ALIAS_SETTINGS_FIELDS = defaultSettingsRecord :=
    (pickRec_ext ALIAS_SETTINGS_FIELDS h).trans rfl
  have hser : serializeAliasSettings rec
      = defaultSettingsRecord
        ++ [ ("shortcuts", JSValue.obj [])
           , ("label_settings", JSValue.obj [])
           , ("aliases_defaults", JSValue.obj []) ] := by
    simp only [serializeAliasSettings, hpick]
    rfl
  refine ⟨?_, ?_, ?_, ?_, ?_, ?_, ?_, ?_⟩ <;>
    (simp only [assembleAccountPayload, hser]; rfl)

/-- Witness for C2 at a concrete populated fresh alias. -/
theorem C2_witness :
    getOwn (assembleAccountPayload "en" samplePopulatedAlias)
        "appearance_theme" = some (.str "system") ∧
      getOwn (assembleAccountPayload "en" samplePopulatedAlias)
        "appearance_layout_mode" = some (.str "personal") ∧
      getOwn (assembleAccountPayload "en" samplePopulatedAlias)
        "mail_messages_per_page" = some (.num 50) ∧
      getOwn (assembleAccountPayload "en" samplePopulatedAlias)
        "mail_archive_folder" = some .null ∧
      getOwn (assembleAccountPayload "en" samplePopulatedAlias)
        "search_body_indexing" = some (.bool false) ∧
      getOwn (assembleAccountPayload "en" samplePopulatedAlias)
        "label_settings" = some (.obj []) ∧
      getOwn (assembleAccountPayload "en" samplePopulatedAlias)
        "shortcuts" = some (.obj []) ∧
      getOwn (assembleAccountPayload "en" samplePopulatedAlias)
        "aliases_defaults" = some (.obj []) :=
  C2_fresh_alias_payload_defaults samplePopulatedAlias "en"
    (by
      intro f hf
      simp only [ALIAS_SETTINGS_FIELDS, List.mem_cons,
        List.not_mem_nil, or_false] at hf
      rcases hf with rfl | rfl | rfl | rfl | rfl | rfl | rfl | rfl | rfl
        | rfl | rfl | rfl | rfl | rfl <;> rfl)

/-- Claim C3: `label_settings` is replaced wholesale.  After two successive
successful updates whose payloads carry label maps M1 then M2, the stored
registry is exactly M2 (in particular M2 = empty empties it). -/
theorem C3_label_settings_full_replace (ctx : Ctx)
    (a doc1 doc2 : JSRecord) (fs1 fs2 : JSRecord)
    (m1 m2 : List (String × JSValue))
    (_h1 : getOwn fs1 "label_settings" = some (.obj m1))
    (_hok1 : updateAliasSettingsForContext ctx (some a) (.obj fs1) = .ok doc1)
    (h2 : getOwn fs2 "label_settings" = some (.obj m2))
    (hok2 : updateAliasSettingsForContext ctx (some doc1) (.obj fs2)
      = .ok doc2) :
    getOwn doc2 "label_settings" = some (.obj m2) := by
  have hmem : "label_settings" ∈ ALIAS_SETTINGS_FIELDS := by decide
  rw [update_ok_getOwn ctx doc1 fs2 doc2 "label_settings" hok2, h2]
  simp [hmem, isUndefinedVal]

/-- Witness for C3 at concrete inputs: M1 has one label, M2 is empty, and
after the second update the stored registry is empty. -/
theorem C3_witness :
    getOwn (defaultSettingsRecord ++ [("label_settings", JSValue.obj [])])
        "label_settings" = some (.obj []) := by
  refine C3_label_settings_full_replace sampleCtx defaultSettingsRecord
    (defaultSettingsRecord ++ [("label_settings",
      JSValue.obj [("work",
        JSValue.obj [("name", JSValue.str "Work"),
          ("color", JSValue.str "#33AADD")])])])
    (defaultSettingsRecord ++ [("label_settings", JSValue.obj [])])
    [("label_settings", JSValue.obj [("work",
        JSValue.obj [("name", JSValue.str "Work"),
          ("color", JSValue.str "#33AADD")])])]
    [("label_settings", JSValue.obj [])]
    [("work", JSValue.obj [("name", JSValue.str "Work"),
        ("color", JSValue.str "#33AADD")])]
    [] rfl ?_ rfl ?_ <;> rfl

/-- Claim C4: partial-update semantics at field granularity — on a
successful update, a whitelisted field present in the payload with a defined
value (falsy values included) ends up with exactly that value on the stored
record, while a field absent from the payload (or present as `undefined`)
is left untouched. -/
theorem C4_partial_update_frame (ctx : Ctx) (a fs doc : JSRecord)
    (k : String)
    (hok : updateAliasSettingsForContext ctx (some a) (.obj fs) = .ok doc) :
    (∀ v, getOwn fs k = some v → isUndefinedVal v = false →
        k ∈ ALIAS_SETTINGS_FIELDS → getOwn doc k = some v) ∧
      (getOwn fs k = none ∨ getOwn fs k = some .undefined →
        getOwn doc k = getOwn a k) := by
  have hchar := update_ok_getOwn ctx a fs doc k hok
  constructor
  · intro v hv hu hk
    rw [hchar, hv]
    simp [hk, hu]
  · intro habs
    rw [hchar]
    by_cases hk : k ∈ ALIAS_SETTINGS_FIELDS
    · rcases habs with hv | hv <;> rw [hv] <;> simp [hk, isUndefinedVal]
    · simp [hk]

/-- Witness for C4 at a concrete input: a payload setting only the falsy
value `compose_plain_default = false` applies that value and leaves
`mail_archive_folder` untouched. -/
theorem C4_witness :
    getOwn (defaultSettingsRecord ++ [("compose_plain_default", JSValue.bool false)])
        "compose_plain_default" = some (.bool false) ∧
      getOwn (defaultSettingsRecord ++ [("compose_plain_default", JSValue.bool false)])
          "mail_archive_folder"
        = getOwn defaultSettingsRecord "mail_archive_folder" :=
  ⟨(C4_partial_update_frame sampleCtx defaultSettingsRecord
      [("compose_plain_default", .bool false)]
      (defaultSettingsRecord ++ [("compose_plain_default", JSValue.bool false)])
      "compose_plain_default" rfl).1 (.bool false) rfl rfl (by decide),
    (C4_partial_update_frame sampleCtx defaultSettingsRecord
      [("compose_plain_default", .bool false)]
      (defaultSettingsRecord ++ [("compose_plain_default", JSValue.bool false)])
      "mail_archive_folder" rfl).2 (Or.inl rfl)⟩

/-- Claim C5: a payload carrying `mail_archive_folder` with a defined value
is rejected with the archive-folder type error — before any field is
applied — exactly when that value is neither `null` nor a string. -/
theorem C5_archive_folder_type_guard (ctx : Ctx) (actx : AliasContext)
    (a fs : JSRecord) (v : JSValue)
    (hctx : getAliasContext ctx = .ok actx)
    (hv : getOwn fs "mail_archive_folder" = some v)
    (hu : isUndefinedVal v = false) :
    (isNull v = false → isStrVal v = false →
      updateAliasSettingsForContext ctx (some a) (.obj fs)
          = .error .archiveFolderInvalid ∧
        persistedAfterUpdate ctx (some a) (.obj fs) = some a) ∧
      (isNull v = true ∨ isStrVal v = true →
        updateAliasSettingsForContext ctx (some a) (.obj fs)
          ≠ .error .archiveFolderInvalid) := by
  have hbadeq : archiveFolderBad (pickRec fs ALIAS_SETTINGS_FIELDS)
      = (!isNull v && !isUndefinedVal v && !(typeOf v == "string")) := by
    unfold archiveFolderBad
    rw [getOwn_pickRec fs ALIAS_SETTINGS_FIELDS "mail_archive_folder"
      (by decide)]
    simp [show ("mail_archive_folder" ∈ ALIAS_SETTINGS_FIELDS)
      from by decide, hv]
  constructor
  · intro hn hs
    have hbad : archiveFolderBad (pickRec fs ALIAS_SETTINGS_FIELDS) = true := by
      rw [hbadeq, typeOf_string_iff, hn, hu, hs]
      rfl
    have herr : updateAliasSettingsForContext ctx (some a) (.obj fs)
        = .error .archiveFolderInvalid := by
      rw [update_obj_eq ctx actx a fs hctx, hbad]
      rfl
    exact ⟨herr, by simp [persistedAfterUpdate, herr]⟩
  · intro hgood
    have hbad : archiveFolderBad (pickRec fs ALIAS_SETTINGS_FIELDS) = false := by
      rw [hbadeq, typeOf_string_iff]
      rcases hgood with hn | hs
      · rw [hn]; rfl
      · rw [hs]; simp
    rw [update_obj_eq ctx actx a fs hctx, hbad]
    simp only [if_false, Bool.false_eq_true]
    cases findFieldError ALIAS_SETTINGS_FIELDS
        (applyUpdates a (pickRec fs ALIAS_SETTINGS_FIELDS)) with
    | some fr => simp
    | none => simp

/-- Witness for C5 at a concrete input: `mail_archive_folder = 12345` is
rejected with the archive-folder error and nothing is persisted. -/
theorem C5_witness :
    (updateAliasSettingsForContext sampleCtx (some defaultSettingsRecord)
        (.obj [("mail_archive_folder", .num 12345)])
        = .error .archiveFolderInvalid ∧
      persistedAfterUpdate sampleCtx (some defaultSettingsRecord)
        (.obj [("mail_archive_folder", .num 12345)])
        = some defaultSettingsRecord) :=
  (C5_archive_folder_type_guard sampleCtx sampleActx defaultSettingsRecord
    [("mail_archive_folder", .num 12345)] (.num 12345)
    rfl rfl rfl).1 rfl rfl

/-- Claim C6: mail_messages_per_page is validated against a fixed closed
set of page sizes — any object payload carrying
`mail_messages_per_page = 30` (resolved actor, record present) is rejected
with a client (400) error, while payloads carrying 50 or 100 are
accepted. -/
theorem C6_page_size_closed_set (ctx : Ctx) (actx : AliasContext)
    (a fs : JSRecord)
    (hctx : getAliasContext ctx = .ok actx)
    (h30 : getOwn fs "mail_messages_per_page" = some (.num 30)) :
    (∃ e, updateAliasSettingsForContext ctx (some a) (.obj fs) = .error e ∧
        errorStatus e = 400) ∧
      updateAliasSettingsForContext sampleCtx (some defaultSettingsRecord)
          (.obj [("mail_messages_per_page", .num 50)])
        = .ok (setKey defaultSettingsRecord "mail_messages_per_page"
            (.num 50)) ∧
      updateAliasSettingsForContext sampleCtx (some defaultSettingsRecord)
          (.obj [("mail_messages_per_page", .num 100)])
        = .ok (setKey defaultSettingsRecord "mail_messages_per_page"
            (.num 100)) := by
  refine ⟨?_, rfl, rfl⟩
  exact update_rejects_invalid_field ctx actx a fs "mail_messages_per_page"
    (.num 30) "InvalidEnum" hctx (by decide) h30 rfl rfl

/-- Witness for C6 at a concrete payload with page size 30. -/
theorem C6_witness :
    (∃ e, updateAliasSettingsForContext sampleCtx
        (some defaultSettingsRecord)
        (.obj [("mail_messages_per_page", .num 30)]) = .error e ∧
        errorStatus e = 400) ∧
      updateAliasSettingsForContext sampleCtx (some defaultSettingsRecord)
          (.obj [("mail_messages_per_page", .num 50)])
        = .ok (setKey defaultSettingsRecord "mail_messages_per_page"
            (.num 50)) ∧
      updateAliasSettingsForContext sampleCtx (some defaultSettingsRecord)
          (.obj [("mail_messages_per_page", .num 100)])
        = .ok (setKey defaultSettingsRecord "mail_messages_per_page"
            (.num 100)) :=
  C6_page_size_closed_set sampleCtx sampleActx defaultSettingsRecord
    [("mail_messages_per_page", .num 30)] rfl rfl

/-- Claim C7: top-level payload keys outside the 14-name whitelist are
silently ignored — the update behaves identically on the payload and on the
payload restricted to whitelisted keys (so unknown keys never cause a
failure), and on success every key outside the whitelist is untouched on
the stored record. -/
theorem C7_unknown_keys_ignored (ctx : Ctx) (stored : Option JSRecord)
    (fs : JSRecord) :
    updateAliasSettingsForContext ctx stored (.obj fs)
        = updateAliasSettingsForContext ctx stored
            (.obj (fs.filter fun kv =>
              decide (kv.1 ∈ ALIAS_SETTINGS_FIELDS))) ∧
      ∀ a doc k, stored = some a →
        updateAliasSettingsForContext ctx stored (.obj fs) = .ok doc →
        k ∉ ALIAS_SETTINGS_FIELDS → getOwn doc k = getOwn a k := by
  have hpick : pickRec (fs.filter fun kv =>
      decide (kv.1 ∈ ALIAS_SETTINGS_FIELDS)) ALIAS_SETTINGS_FIELDS
      = pickRec fs ALIAS_SETTINGS_FIELDS := by
    apply pickRec_ext
    intro f hf
    exact getOwn_filter fs _ f (fun v => by simp [hf])
  constructor
  · cases hctx : getAliasContext ctx with
    | error e => simp [updateAliasSettingsForContext, hctx]
    | ok actx =>
      cases stored with
      | none => simp [updateAliasSettingsForContext, hctx, truthy, typeOf]
      | some a =>
        rw [update_obj_eq ctx actx a fs hctx,
          update_obj_eq ctx actx a _ hctx, hpick]
  · intro a doc k hst hok hk
    subst hst
    rw [update_ok_getOwn ctx a fs doc k hok]
    simp [hk]

/-- Witness for C7 at a concrete payload with an unknown key. -/
theorem C7_witness :
    updateAliasSettingsForContext sampleCtx (some defaultSettingsRecord)
        (.obj [("unknown_key", JSValue.str "x"),
          ("appearance_theme", JSValue.str "dark")])
        = updateAliasSettingsForContext sampleCtx
            (some defaultSettingsRecord)
            (.obj ([("unknown_key", JSValue.str "x"),
              ("appearance_theme", JSValue.str "dark")].filter
                fun kv => decide (kv.1 ∈ ALIAS_SETTINGS_FIELDS))) ∧
      getOwn (setKey defaultSettingsRecord "appearance_theme"
          (.str "dark")) "unknown_key"
        = getOwn defaultSettingsRecord "unknown_key" :=
  ⟨(C7_unknown_keys_ignored sampleCtx (some defaultSettingsRecord)
      [("unknown_key", JSValue.str "x"),
        ("appearance_theme", JSValue.str "dark")]).1,
    (C7_unknown_keys_ignored sampleCtx (some defaultSettingsRecord)
      [("unknown_key", JSValue.str "x"),
        ("appearance_theme", JSValue.str "dark")]).2
      defaultSettingsRecord
      (setKey defaultSettingsRecord "appearance_theme" (.str "dark"))
      "unknown_key" rfl (by rfl) (by decide)⟩

/-- Claim C8 counterexample: with actor resolution succeeding and the alias
record gone, the fetch inside `updateAliasSettingsForContext` fails with
the unauthorized invalid-alias-id error (HTTP 401) — not NotFound
(HTTP 404) as the claim states for every such operation. -/
theorem C8_counterexample :
    updateAliasSettingsForContext sampleCtx none (.obj [])
        = .error .invalidAliasId ∧
      SettingsError.invalidAliasId ≠ SettingsError.aliasDoesNotExist ∧
      errorStatus .invalidAliasId = 401 ∧
      errorStatus .aliasDoesNotExist = 404 :=
  ⟨rfl, by decide, rfl, rfl⟩

/-- Claim C8 (amended): in `retrieve`, and in `update`'s re-fetch after a
successful settings save, a missing alias record fails with NotFound; but
the fetch inside `updateAliasSettingsForContext` reports a vanished alias
as the unauthorized invalid-alias-id error instead. -/
theorem C8_vanished_alias_errors (ctx : Ctx) (actx : AliasContext)
    (body : JSValue) (stored : Option JSRecord)
    (hctx : getAliasContext ctx = .ok actx) (hdb : ctx.sessionDb = true)
    (hg : (truthy body && !(typeOf body == "object")) = false) :
    updateAliasSettingsForContext ctx none body = .error .invalidAliasId ∧
      retrieve ctx none = .error .aliasDoesNotExist ∧
      (∀ saved, updateAliasSettingsForContext ctx stored body = .ok saved →
        update ctx stored none body = .error .aliasDoesNotExist) := by
  refine ⟨?_, ?_, ?_⟩
  · simp [updateAliasSettingsForContext, hctx, hg]
  · simp [retrieve, hdb]
  · intro saved hok
    simp [update, hdb, hok]

/-- Witness for the amended C8 at concrete inputs. -/
theorem C8_witness :
    updateAliasSettingsForContext sampleCtx none (.obj [])
        = .error .invalidAliasId ∧
      retrieve sampleCtx none = .error .aliasDoesNotExist ∧
      update sampleCtx (some defaultSettingsRecord) none (.obj [])
        = .error .aliasDoesNotExist := by
  obtain ⟨h1, h2, h3⟩ := C8_vanished_alias_errors sampleCtx sampleActx
    (.obj []) (some defaultSettingsRecord) rfl rfl rfl
  exact ⟨h1, h2, h3 defaultSettingsRecord rfl⟩

/-- Claim C9 counterexample: with `max_quota_per_alias` present on the
domain but equal to 0, the assembled payload's storage_quota is the global
default constant, not the domain's attribute value — the truthiness
fallback treats a present falsy quota as absent. -/
theorem C9_counterexample :
    getPropV (getProp zeroQuotaAlias "domain") "max_quota_per_alias"
        = .num 0 ∧
      getOwn (assembleAccountPayload "en" zeroQuotaAlias) "storage_quota"
        = some configMaxQuotaPerAlias ∧
      configMaxQuotaPerAlias ≠ .num 0 := by
  refine ⟨rfl, rfl, ?_⟩
  intro h
  have h2 : JSValue.num 10737418240 = JSValue.num 0 := h
  injection h2 with h3
  exact absurd h3 (by decide)

/-- Claim C9 (amended): storage_quota equals the domain's
`max_quota_per_alias` when that attribute is present with a truthy
(nonzero) value; when the attribute is absent — or present but falsy, such
as 0 — it falls back to the global default quota constant. -/
theorem C9_quota_fallback (aliasDoc : JSRecord) (dfs : JSRecord)
    (locale : String) (n : Int)
    (hd : getProp aliasDoc "domain" = .obj dfs) :
    (getOwn dfs "max_quota_per_alias" = some (.num n) → n ≠ 0 →
      getOwn (assembleAccountPayload locale aliasDoc) "storage_quota"
        = some (.num n)) ∧
      (getOwn dfs "max_quota_per_alias" = none →
        getOwn (assembleAccountPayload locale aliasDoc) "storage_quota"
          = some configMaxQuotaPerAlias) ∧
      (getOwn dfs "max_quota_per_alias" = some (.num 0) →
        getOwn (assembleAccountPayload locale aliasDoc) "storage_quota"
          = some configMaxQuotaPerAlias) := by
  have hsq : getOwn (assembleAccountPayload locale aliasDoc)
      "storage_quota" = some (maxQuotaOf aliasDoc) := rfl
  have hmq : maxQuotaOf aliasDoc
      = jsOr ((getOwn dfs "max_quota_per_alias").getD JSValue.undefined)
          configMaxQuotaPerAlias := by
    unfold maxQuotaOf
    rw [show getProp aliasDoc "domain" = JSValue.obj dfs from hd]
    simp [jsAnd, truthy, getPropV, getProp]
  refine ⟨?_, ?_, ?_⟩
  · intro hq hn
    rw [hsq, hmq, hq]
    simp [jsOr, truthy, hn]
  · intro hq
    rw [hsq, hmq, hq]
    simp [jsOr, truthy]
  · intro hq
    rw [hsq, hmq, hq]
    simp [jsOr, truthy]

/-- Witness for the amended C9: a nonzero quota (42) is surfaced, an
absent quota falls back to the default constant. -/
theorem C9_witness :
    getOwn (assembleAccountPayload "en" quotaAlias) "storage_quota"
        = some (.num 42) ∧
      getOwn (assembleAccountPayload "en" samplePopulatedAlias)
        "storage_quota" = some configMaxQuotaPerAlias := by
  obtain ⟨h1, _, _⟩ := C9_quota_fallback quotaAlias
    [("name", .str "example.com"), ("max_quota_per_alias", .num 42)]
    "en" 42 rfl
  obtain ⟨_, h2, _⟩ := C9_quota_fallback samplePopulatedAlias
    [("id", .str "64f000000000000000000002"), ("name", .str "example.com")]
    "en" 1 rfl
  exact ⟨h1 rfl (by decide), h2 rfl⟩

/-- Claim C10: the body-type guard rejects only a present non-object body.
An absent (`undefined`), `null`, or array body is not rejected with
InvalidBody: the call proceeds, applies no settings fields, performs the
persistence save, and persists the stored record unchanged (so the
assembled payload's settings fields are unchanged); a non-empty string
body, by contrast, is rejected with InvalidBody. -/
theorem C10_body_guard_lenient (ctx : Ctx) (actx : AliasContext)
    (a : JSRecord) (elems : List JSValue) (s : String)
    (hctx : getAliasContext ctx = .ok actx)
    (hvalid : findFieldError ALIAS_SETTINGS_FIELDS a = none)
    (hs : s.length ≠ 0) :
    updateAliasSettingsForContext ctx (some a) .undefined = .ok a ∧
      updateAliasSettingsForContext ctx (some a) .null = .ok a ∧
      updateAliasSettingsForContext ctx (some a) (.arr elems) = .ok a ∧
      updateAliasSettingsForContext ctx (some a) (.str s)
        = .error .invalidRequestBody := by
  refine ⟨?_, ?_, ?_, ?_⟩
  · simp [updateAliasSettingsForContext, hctx, truthy, typeOf, pickFields,
      archiveFolderBad, getOwn, applyUpdates, hvalid]
  · simp [updateAliasSettingsForContext, hctx, truthy, typeOf, pickFields,
      archiveFolderBad, getOwn, applyUpdates, hvalid]
  · simp [updateAliasSettingsForContext, hctx, truthy, typeOf, pickFields,
      archiveFolderBad, getOwn, applyUpdates, hvalid]
  · simp [updateAliasSettingsForContext, hctx, truthy, typeOf, hs]

/-- Witness for C10 at concrete bodies. -/
theorem C10_witness :
    updateAliasSettingsForContext sampleCtx (some defaultSettingsRecord)
        .undefined = .ok defaultSettingsRecord ∧
      updateAliasSettingsForContext sampleCtx (some defaultSettingsRecord)
        .null = .ok defaultSettingsRecord ∧
      updateAliasSettingsForContext sampleCtx (some defaultSettingsRecord)
        (.arr [.str "x"]) = .ok defaultSettingsRecord ∧
      updateAliasSettingsForContext sampleCtx (some defaultSettingsRecord)
        (.str "oops") = .error .invalidRequestBody :=
  C10_body_guard_lenient sampleCtx sampleActx defaultSettingsRecord
    [.str "x"] "oops" rfl rfl (by decide)

end Fwml
